import Mathlib

/-!
Verification of the CSV record-store core of `app.py` (a Streamlit CSV editor).

The embedding translates, from the source:
  * the on-disk codec: `save_csv` (header line plus `csv.writer` with
    `QUOTE_ALL`, i.e. every field quoted, embedded quotes doubled, rows
    terminated by CR LF) and the `csv.reader` character-level state machine
    used by `load_csv`;
  * `load_csv`'s row filtering (comment skip on the first decoded field,
    minimum field count, quote stripping) and its error/bootstrap paths,
    with the filesystem interaction abstracted as an oracle (`FsRead`,
    `FsWrite`);
  * `search_data`;
  * the create / update / delete / reload state transitions of `main`,
    acting on the session state (`data`, `search_str`, `filtered_data`,
    `current_line`).
-/

namespace KnowledgeApp

/-- A record of the fixed three-field schema (`FIELDS = ["key", "value", "tags"]`). -/
structure Record where
  key : String
  value : String
  tags : String
deriving DecidableEq, Repr

/-- The schema, `FIELDS = ["key", "value", "tags"]` (app.py line 40). -/
def FIELDS : List String := ["key", "value", "tags"]

/-- The commented header line written by both `load_csv` (bootstrap) and
`save_csv`: `'# ' + ','.join(FIELDS) + '\n'` (app.py lines 64 and 103). -/
def headerLine : String := "# " ++ String.intercalate (",") FIELDS ++ "\n"

/-! ## CSV writer (`save_csv`, app.py lines 84-108)

`csv.writer(csvfile, quoting=csv.QUOTE_ALL)` with the default excel dialect:
every field is wrapped in double quotes, an embedded double quote is written
as two double quotes, and the row is terminated by `\r\n`.  The file is opened
with `newline=''`, so no newline translation happens. -/

/-- Double every `"` character, as the csv writer does inside a quoted field. -/
def escapeQuotes : List Char → List Char
  | [] => []
  | c :: cs => if c = '"' then '"' :: '"' :: escapeQuotes cs else c :: escapeQuotes cs

/-- One fully quoted field as written under `QUOTE_ALL`. -/
def quoteField (f : String) : List Char :=
  '"' :: (escapeQuotes f.data ++ ['"'])

/-- One encoded record row: three quoted fields joined by commas and the
excel-dialect line terminator `\r\n`. -/
def encodeRow (r : Record) : List Char :=
  quoteField r.key ++ ',' :: quoteField r.value ++ ',' :: quoteField r.tags ++ ['\r', '\n']

/-- The full file content written by `save_csv`: the commented header then one
encoded row per record, in order (app.py lines 101-106). -/
def saveContent (data : List Record) : List Char :=
  headerLine.data ++ (data.map encodeRow).flatten

/-! ## CSV reader (`csv.reader`, used by `load_csv`)

The character-level state machine of CPython's `_csv` module for the excel
dialect (delimiter `,`, quote `"`, doubled quotes, non-strict).  Python feeds
the parser line by line and ends each line with a sentinel; because the file
is opened with `newline=''`, `\r` and `\n` occur inside a line only as its
terminator, so the sentinel behaviour is reproduced here by treating a
non-newline character seen in `eatCrnl` as the start of the next row.  A
blank line yields an empty row in Python, which `load_csv` drops via its
`if row` guard; this model elides those empty rows (no other row is ever
empty), so the guard is kept but never fires on parser output. -/

inductive CsvState
  | startRecord
  | startField
  | inField
  | inQuoted
  | quoteInQuoted
  | eatCrnl
deriving DecidableEq, Repr

/-- The csv.reader state machine.  Arguments: state, current field buffer,
completed fields of the current row, remaining input.  Returns the decoded
rows, each a list of fields. -/
def csvAux : CsvState → List Char → List (List Char) → List Char → List (List (List Char))
  | .startRecord, _, _, [] => []
  | .startField, field, fields, [] => [fields ++ [field]]
  | .inField, field, fields, [] => [fields ++ [field]]
  | .inQuoted, field, fields, [] => [fields ++ [field]]
  | .quoteInQuoted, field, fields, [] => [fields ++ [field]]
  | .eatCrnl, _, _, [] => []
  | .startRecord, _, _, c :: cs =>
    if c = '\n' ∨ c = '\r' then csvAux .eatCrnl [] [] cs
    else if c = '"' then csvAux .inQuoted [] [] cs
    else if c = ',' then csvAux .startField [] [[]] cs
    else csvAux .inField [c] [] cs
  | .startField, field, fields, c :: cs =>
    if c = '\n' ∨ c = '\r' then (fields ++ [field]) :: csvAux .eatCrnl [] [] cs
    else if c = '"' then csvAux .inQuoted field fields cs
    else if c = ',' then csvAux .startField [] (fields ++ [field]) cs
    else csvAux .inField (field ++ [c]) fields cs
  | .inField, field, fields, c :: cs =>
    if c = '\n' ∨ c = '\r' then (fields ++ [field]) :: csvAux .eatCrnl [] [] cs
    else if c = ',' then csvAux .startField [] (fields ++ [field]) cs
    else csvAux .inField (field ++ [c]) fields cs
  | .inQuoted, field, fields, c :: cs =>
    if c = '"' then csvAux .quoteInQuoted field fields cs
    else csvAux .inQuoted (field ++ [c]) fields cs
  | .quoteInQuoted, field, fields, c :: cs =>
    if c = '"' then csvAux .inQuoted (field ++ ['"']) fields cs
    else if c = ',' then csvAux .startField [] (fields ++ [field]) cs
    else if c = '\n' ∨ c = '\r' then (fields ++ [field]) :: csvAux .eatCrnl [] [] cs
    else csvAux .inField (field ++ [c]) fields cs
  | .eatCrnl, _, _, c :: cs =>
    if c = '\n' ∨ c = '\r' then csvAux .eatCrnl [] [] cs
    else if c = '"' then csvAux .inQuoted [] [] cs
    else if c = ',' then csvAux .startField [] [[]] cs
    else csvAux .inField [c] [] cs

/-- Decode a whole file content into rows. -/
def csvParse (content : List Char) : List (List (List Char)) :=
  csvAux .startRecord [] [] content

/-! ## `load_csv` row handling (app.py lines 67-78) -/

/-- `row[0].startswith('#')` on a decoded field. -/
def startsWithHash : List Char → Bool
  | [] => false
  | c :: _ => c = '#'

/-- Python `str.strip('"')`: remove all leading and all trailing `"`. -/
def stripQuotes (s : List Char) : List Char :=
  ((s.dropWhile (· = '"')).reverse.dropWhile (· = '"')).reverse

/-- `{FIELDS[i]: row[i].strip('"') for i in range(3)}` (app.py line 75). -/
def rowToRecord (row : List (List Char)) : Record where
  key := ⟨stripQuotes (row.getD 0 [])⟩
  value := ⟨stripQuotes (row.getD 1 [])⟩
  tags := ⟨stripQuotes (row.getD 2 [])⟩

/-- The per-row loop of `load_csv` (app.py lines 71-77): skip empty rows and
rows whose first field starts with `#`; keep rows with at least 3 fields as
records built from their first three fields; warn (second component) on the
remaining rows, preserving the row content. -/
def loadRows : List (List (List Char)) → List Record × List (List (List Char))
  | [] => ([], [])
  | row :: rest =>
    let r := loadRows rest
    if row.isEmpty || startsWithHash (row.headD []) then r
    else if 3 ≤ row.length then (rowToRecord row :: r.1, r.2)
    else (r.1, row :: r.2)

/-- Oracle for `load_csv`'s filesystem interaction: the path is missing, or
readable with the given content, or reading fails (permission denied,
directory not found, ...). -/
inductive FsRead
  | missing
  | content (chars : List Char)
  | ioError (msg : String)

/-- Everything `load_csv` produces: the returned record list, the
`st.warning` messages for malformed rows, the content of the file it creates
when bootstrapping a missing path, and the `st.error` message on failure. -/
structure LoadResult where
  records : List Record
  warnings : List (List (List Char))
  created : Option (List Char)
  errorMsg : Option String
deriving DecidableEq, Repr

/-- `load_csv` (app.py lines 43-81).  A missing file is bootstrapped with the
commented header and yields no records; a readable file is decoded and
filtered row by row; any other exception is caught, shown via `st.error`,
and an empty list is returned. -/
def load_csv : FsRead → LoadResult
  | .missing =>
    { records := [], warnings := [], created := some headerLine.data, errorMsg := none }
  | .content chars =>
    let p := loadRows (csvParse chars)
    { records := p.1, warnings := p.2, created := none, errorMsg := none }
  | .ioError m =>
    { records := [], warnings := [], created := none,
      errorMsg := some ("Error loading CSV: " ++ m) }

/-- Oracle for `save_csv`'s filesystem interaction. -/
inductive FsWrite
  | ok
  | ioError (msg : String)

/-- Outcome of `save_csv`: the written content, or the `st.error` message. -/
structure SaveResult where
  written : Option (List Char)
  errorMsg : Option String
deriving DecidableEq, Repr

/-- `save_csv` (app.py lines 84-108): write header and all rows, catching any
exception and showing it via `st.error` (nothing is raised to the caller). -/
def save_csv : FsWrite → List Record → SaveResult
  | .ok, data => { written := some (saveContent data), errorMsg := none }
  | .ioError m, _ => { written := none, errorMsg := some ("Error saving CSV: " ++ m) }

/-! ## `search_data` (app.py lines 111-130) -/

/-- Python `str.lower()`: lower-case every character. -/
def pyLower (s : String) : String :=
  ⟨s.data.map Char.toLower⟩

/-- `search_data`: empty search string returns the data unchanged; otherwise
the search string is lower-cased once and a record is kept when it occurs as
a substring (Python `in`) of the lower-cased value of any of its fields. -/
def search_data (data : List Record) (search_str : String) : List Record :=
  if search_str = "" then data
  else
    let s := pyLower search_str
    data.filter (fun r =>
      [r.key, r.value, r.tags].any (fun f => decide (s.data <:+: (pyLower f).data)))

/-! ## Session state and the create / update / delete / reload transitions

`main` keeps `data` (the canonical list), `search_str`, `filtered_data`
(last value of `search_data data search_str`) and `current_line` (an `Int`,
`-1` meaning "no selection") in `st.session_state`.  Each branch below is
translated from the corresponding block of `main`; the `save_csv` call on
the success paths writes the file and is modelled separately by `save_csv`
above, it does not touch the session state. -/

structure AppState where
  data : List Record
  search_str : String
  filtered_data : List Record
  current_line : Int
deriving DecidableEq, Repr

/-- Errors surfaced by the create/update/delete branches: the two `st.error`
validation messages, and the Python exceptions that the list accesses can
raise (caught by the top-level handler). -/
inductive KVError
  | emptyKey
  | duplicateKey
  | indexError
  | stopIteration
deriving DecidableEq, Repr

/-- The create form submission (app.py lines 252-265): reject a blank key,
then reject a key equal to an existing record's key, otherwise append the
new record, recompute the filtered view and reset the cursor. -/
def createStep (s : AppState) (k v t : String) : AppState × Option KVError :=
  if k = "" then (s, some .emptyKey)
  else if s.data.any (fun r => r.key == k) then (s, some .duplicateKey)
  else
    let data' := s.data ++ [⟨k, v, t⟩]
    let filtered' := search_data data' s.search_str
    ({ data := data', search_str := s.search_str, filtered_data := filtered',
       current_line := if filtered'.isEmpty then -1 else 0 }, none)

/-- The update form submission (app.py lines 270-298) on the record at
`filtered_data[current_line]` (the branch runs only when `current_line >= 0`):
reject a blank key; if the key changed and any record of `data` already has
the submitted key, reject; otherwise replace, whole, the first record of
`data` whose key is the original key (`next(i for i, ...)`), recompute the
filtered view, and leave the cursor where it was. -/
def updateStep (s : AppState) (k v t : String) : AppState × Option KVError :=
  if s.current_line < 0 then (s, none)
  else match s.filtered_data.get? s.current_line.toNat with
    | none => (s, some .indexError)
    | some orig =>
      if k = "" then (s, some .emptyKey)
      else if k != orig.key && s.data.any (fun r => r.key == k) then (s, some .duplicateKey)
      else match s.data.findIdx? (fun r => r.key == orig.key) with
        | none => (s, some .stopIteration)
        | some i =>
          let data' := s.data.set i ⟨k, v, t⟩
          ({ data := data', search_str := s.search_str,
             filtered_data := search_data data' s.search_str,
             current_line := s.current_line }, none)

/-- The confirmed delete (app.py lines 303-317), running only when
`current_line >= 0`: remove every record whose key equals the selected
record's key, recompute the filtered view, then set
`current_line = min(current_line, len(filtered_data) - 1) if filtered_data
else -1`.  In Python that `filtered_data` is the pre-delete list object;
when `search_str` is empty, `search_data` returned `data` itself, so the
in-place `data[:] = ...` mutation makes that object the post-delete list,
while for a non-empty search string it is a stale copy of the pre-delete
filtered view.  `staleView` reproduces this aliasing. -/
def deleteStep (s : AppState) : AppState × Option KVError :=
  if s.current_line < 0 then (s, none)
  else match s.filtered_data.get? s.current_line.toNat with
    | none => (s, some .indexError)
    | some orig =>
      let data' := s.data.filter (fun r => r.key != orig.key)
      let filtered' := search_data data' s.search_str
      let staleView := if s.search_str = "" then data' else s.filtered_data
      let current' : Int :=
        if staleView.isEmpty then -1 else min s.current_line ((staleView.length : Int) - 1)
      ({ data := data', search_str := s.search_str, filtered_data := filtered',
         current_line := current' }, none)

/-- Loading a file into the session (app.py lines 192-196, also the Reload
button, lines 362-366 with an empty active search): `data` and
`filtered_data` become the result of `load_csv`, the cursor points at the
first record or at nothing. -/
def reloadStep (s : AppState) (fs : FsRead) : AppState :=
  let res := load_csv fs
  { data := res.records, search_str := s.search_str, filtered_data := res.records,
    current_line := if res.records.isEmpty then -1 else 0 }

/-! ## Concrete states used by the witness and counterexample theorems -/

/-- Witness state for the C2 theorem. -/
def sW2 : AppState := ⟨[⟨"a", "1", "t"⟩], "", [⟨"a", "1", "t"⟩], 0⟩

/-- Witness state for the C3 theorem. -/
def sW3 : AppState := ⟨[⟨"a", "1", ""⟩, ⟨"b", "2", ""⟩], "", [⟨"a", "1", ""⟩, ⟨"b", "2", ""⟩], 0⟩

/-- The C4 failing input: one record, matching the active search term `x`,
selected. -/
def sW4 : AppState := ⟨[⟨"a", "x", ""⟩], "x", [⟨"a", "x", ""⟩], 0⟩

/-- Witness state for the C6 theorems. -/
def sW6 : AppState := ⟨[⟨"k", "v", "t"⟩], "", [⟨"k", "v", "t"⟩], 0⟩

/-! ## Claim C2: create rejects blank and duplicate keys before insertion -/

/-- C2: given the current canonical record list, `create` rejects the new
record and leaves the state unchanged when the supplied key is blank
(`EmptyKeyError`) or equals the key of some existing record
(`DuplicateKeyError`); only otherwise is the record appended (at the end of
the canonical list). -/
theorem create_rejects_before_insert (s : AppState) (k v t : String) :
    (k = "" → createStep s k v t = (s, some .emptyKey)) ∧
    (k ≠ "" → (∃ r ∈ s.data, r.key = k) → createStep s k v t = (s, some .duplicateKey)) ∧
    (k ≠ "" → (∀ r ∈ s.data, r.key ≠ k) →
      (createStep s k v t).2 = none ∧ (createStep s k v t).1.data = s.data ++ [⟨k, v, t⟩]) := by
  refine ⟨?_, ?_, ?_⟩
  · intro hk
    simp [createStep, hk]
  · rintro hk ⟨r, hr, hrk⟩
    have hany : s.data.any (fun r => r.key == k) = true := by
      rw [List.any_eq_true]
      exact ⟨r, hr, by simp [hrk]⟩
    simp [createStep, hk, hany]
  · intro hk hall
    have hany : s.data.any (fun r => r.key == k) = false := by
      rw [Bool.eq_false_iff]
      intro h
      obtain ⟨r, hr, hrk⟩ := List.any_eq_true.mp h
      exact hall r hr (by simpa using hrk)
    simp [createStep, hk, hany]

/-- C2 witness: the three branches of `create_rejects_before_insert` at a
concrete state. -/
theorem create_rejects_before_insert_witness :
    createStep sW2 ("") ("v") ("t") = (sW2, some .emptyKey) ∧
    createStep sW2 ("a") ("v") ("t") = (sW2, some .duplicateKey) ∧
    (createStep sW2 ("b") ("v") ("t")).1.data = sW2.data ++ [⟨"b", "v", "t"⟩] :=
  ⟨(create_rejects_before_insert sW2 ("") ("v") ("t")).1 rfl,
   (create_rejects_before_insert sW2 ("a") ("v") ("t")).2.1 (by decide)
     ⟨⟨"a", "1", "t"⟩, by decide, rfl⟩,
   ((create_rejects_before_insert sW2 ("b") ("v") ("t")).2.2 (by decide) (by decide)).2⟩

/-! ## Claim C4: cursor repositioning after delete (code bug)

With an active non-empty search string, the `min(current_line,
len(filtered_data) - 1)` clamp reads the stale pre-delete filtered list, so
deleting the only record of a 1-record filtered view leaves
`current_line = 0` while the new filtered view is empty — an out-of-range
selection, where the specification requires "no selection" (`-1`).  (With an
empty search string the aliasing of `filtered_data` and `data` makes the
clamp read the post-delete list, and the cursor is clamped correctly.) -/

/-- C4: evaluating the delete transition at the failing input: the new
filtered view is empty, yet the cursor stays at index 0 instead of moving
to "no selection". -/
theorem delete_cursor_out_of_range :
    (deleteStep sW4).1.filtered_data = [] ∧ (deleteStep sW4).1.current_line = 0 ∧
    (deleteStep sW4).2 = none := by
  decide

/-! ## Claim C6: non-missing I/O failures (corrected)

The spec claims such failures surface an `IOError` to the caller and the
prior in-memory state is retained.  In the code both `load_csv` and
`save_csv` catch every exception and only display an `st.error` message;
`load_csv` then returns `[]`, and `main` assigns that result to the session
state, so the prior records are replaced by the empty list. -/

/-- C6 counterexample: on a permission failure `load_csv` does not fail — it
returns a normal result with an empty record list and only an error message
— and reloading replaces the prior non-empty in-memory state with `[]`
rather than retaining it. -/
theorem ioerror_swallowed_counterexample :
    load_csv (.ioError ("permission denied")) =
      ⟨[], [], none, some ("Error loading CSV: permission denied")⟩ ∧
    (reloadStep sW6 (.ioError ("permission denied"))).data = [] ∧
    sW6.data ≠ [] := by
  decide

/-- C6 amended: on an I/O failure other than a missing file, `load_csv`
catches the exception and returns an empty record list together with a
displayed error message naming the cause, so a caller that assigns the
result replaces its prior records with the empty list; `save_csv` likewise
catches the exception, displays the message, and returns without raising,
leaving the in-memory records unchanged. -/
theorem ioerror_amended (m : String) (s : AppState) (data : List Record) :
    load_csv (.ioError m) = ⟨[], [], none, some ("Error loading CSV: " ++ m)⟩ ∧
    (reloadStep s (.ioError m)).data = [] ∧
    save_csv (.ioError m) data = ⟨none, some ("Error saving CSV: " ++ m)⟩ :=
  ⟨rfl, rfl, rfl⟩

/-! ## Claim C7: bootstrap of a missing file -/

/-- C7: for a path that does not exist `load_csv` does not fail: it writes a
new file holding only the commented header line and returns no records, and
loading that header-only content again also yields no records and no
warnings (idempotent bootstrap). -/
theorem load_missing_bootstrap :
    load_csv .missing = ⟨[], [], some headerLine.data, none⟩ ∧
    (load_csv (.content headerLine.data)).records = [] ∧
    (load_csv (.content headerLine.data)).warnings = [] := by
  decide

/-! ## Claim C8: substring search -/

/-- C8: `search_data` returns exactly the records for which the lower-cased
term occurs as a substring of the lower-cased value of at least one of the
three fields, in input order (a `filter` of the input), and the empty term
is the identity filter. -/
theorem search_data_substring_filter (data : List Record) (term : String) :
    search_data data term =
      data.filter (fun r =>
        decide ((pyLower term).data <:+: (pyLower r.key).data ∨
                (pyLower term).data <:+: (pyLower r.value).data ∨
                (pyLower term).data <:+: (pyLower r.tags).data)) ∧
    search_data data ("") = data := by
  have hid : search_data data ("") = data := by simp [search_data]
  refine ⟨?_, hid⟩
  by_cases h : term = ""
  · subst h
    rw [hid]
    symm
    rw [List.filter_eq_self]
    intro r _
    rw [decide_eq_true_eq]
    exact Or.inl ⟨[], (pyLower r.key).data, rfl⟩
  · simp only [search_data, if_neg h]
    refine List.filter_congr ?_
    intro r _
    simp

/-! ## Claim C3: update detects key change and checks uniqueness -/

/-- If the keys of `l` are pairwise distinct and `r` sits at index `i`, then
the first index whose key equals `r.key` is `i` (the `next(...)` search of
the update branch). -/
theorem findIdx_key_of_nodup (l : List Record) (r : Record) :
    ∀ (i j : Nat), (l.map (fun x => x.key)).Nodup → l.get? i = some r →
      l.findIdx? (fun x => x.key == r.key) j = some (j + i) := by
  induction l with
  | nil =>
    intro i j _ hget
    simp at hget
  | cons a tl ih =>
    intro i j hnd hget
    rw [List.map_cons, List.nodup_cons] at hnd
    match i with
    | 0 =>
      rw [List.get?_cons_zero, Option.some_inj] at hget
      subst hget
      simp [List.findIdx?]
    | i' + 1 =>
      rw [List.get?_cons_succ] at hget
      have hmem : r.key ∈ tl.map (fun x => x.key) :=
        List.mem_map_of_mem _ (List.get?_mem hget)
      have hne : (a.key == r.key) = false := by
        rw [beq_eq_false_iff_ne]
        intro hcontra
        exact hnd.1 (hcontra ▸ hmem)
      rw [List.findIdx?, hne]
      simp only [Bool.false_eq_true, if_false]
      rw [ih i' (j + 1) hnd.2 hget]
      exact congrArg some (by omega)

/-- Unfolding of `updateStep` once the cursor is known to select `orig`. -/
theorem updateStep_unfold (s : AppState) (k v t : String) (orig : Record)
    (hneg : ¬ s.current_line < 0)
    (hcur : s.filtered_data.get? s.current_line.toNat = some orig) :
    updateStep s k v t =
      if k = "" then (s, some .emptyKey)
      else if k != orig.key && s.data.any (fun r => r.key == k) then (s, some .duplicateKey)
      else match s.data.findIdx? (fun r => r.key == orig.key) with
        | none => (s, some .stopIteration)
        | some i =>
          ({ data := s.data.set i ⟨k, v, t⟩, search_str := s.search_str,
             filtered_data := search_data (s.data.set i ⟨k, v, t⟩) s.search_str,
             current_line := s.current_line }, none) := by
  simp only [updateStep, if_neg hneg, hcur]

/-- C3: on the selected record `orig` (at `filtered_data[current_line]`,
sitting at position `i` of the canonical list, whose keys are pairwise
distinct), the update with a non-blank key `k`:
if `k` equals the original key, no uniqueness check applies and the record
is replaced whole at position `i`; if `k` differs, the update is rejected
with `DuplicateKeyError` exactly when some other record (an index `≠ i`)
carries key `k`, and otherwise succeeds, replacing the record whole at
position `i`. -/
theorem update_key_change_check (s : AppState) (k v t : String) (orig : Record) (i : Nat)
    (hpos : 0 ≤ s.current_line)
    (hcur : s.filtered_data.get? s.current_line.toNat = some orig)
    (hi : s.data.get? i = some orig)
    (hnd : (s.data.map (fun x => x.key)).Nodup) :
    (k ≠ "" → k = orig.key →
      (updateStep s k v t).2 = none ∧ (updateStep s k v t).1.data = s.data.set i ⟨k, v, t⟩) ∧
    (k ≠ "" → k ≠ orig.key →
      ((updateStep s k v t).2 = some .duplicateKey ↔
        ∃ j r, j ≠ i ∧ s.data.get? j = some r ∧ r.key = k)) ∧
    (k ≠ "" → k ≠ orig.key → (∀ r ∈ s.data, r.key ≠ k) →
      (updateStep s k v t).2 = none ∧ (updateStep s k v t).1.data = s.data.set i ⟨k, v, t⟩) := by
  have hneg : ¬ s.current_line < 0 := not_lt.mpr hpos
  have hfind : s.data.findIdx? (fun x => x.key == orig.key) = some i := by
    simpa using findIdx_key_of_nodup s.data orig i 0 hnd hi
  refine ⟨?_, ?_, ?_⟩
  · intro hk hkeq
    have hcond : (k != orig.key && s.data.any fun r => r.key == k) = false := by
      simp [hkeq]
    rw [updateStep_unfold s k v t orig hneg hcur, if_neg hk, hcond, hfind]
    simp
  · intro hk hkne
    have hbne : (k != orig.key) = true := by simpa using hkne
    constructor
    · intro hres
      by_cases hany : (s.data.any fun r => r.key == k) = true
      · obtain ⟨r, hr, hrk⟩ := List.any_eq_true.mp hany
        have hrk' : r.key = k := by simpa using hrk
        obtain ⟨j, hj⟩ := List.get?_of_mem hr
        refine ⟨j, r, ?_, hj, hrk'⟩
        intro hji
        subst hji
        rw [hi, Option.some_inj] at hj
        exact hkne (by rw [hj]; exact hrk'.symm)
      · exfalso
        rw [Bool.not_eq_true] at hany
        rw [updateStep_unfold s k v t orig hneg hcur, if_neg hk] at hres
        have hcond : (k != orig.key && s.data.any fun r => r.key == k) = false := by
          rw [hany]; simp
        rw [hcond, hfind] at hres
        simp at hres
    · rintro ⟨j, r, _hji, hj, hrk⟩
      have hany : (s.data.any fun r => r.key == k) = true :=
        List.any_eq_true.mpr ⟨r, List.get?_mem hj, by simp [hrk]⟩
      have hcond : (k != orig.key && s.data.any fun r => r.key == k) = true := by
        rw [hbne, hany]; rfl
      rw [updateStep_unfold s k v t orig hneg hcur, if_neg hk, hcond]
      rfl
  · intro hk hkne hall
    have hany : (s.data.any fun r => r.key == k) = false := by
      rw [Bool.eq_false_iff]
      intro h
      obtain ⟨r, hr, hrk⟩ := List.any_eq_true.mp h
      exact hall r hr (by simpa using hrk)
    have hcond : (k != orig.key && s.data.any fun r => r.key == k) = false := by
      rw [hany]; simp
    rw [updateStep_unfold s k v t orig hneg hcur, if_neg hk, hcond, hfind]
    simp

/-- C3 witness: at a concrete state, changing the selected record's key to
an existing other key is rejected, while an update keeping the key succeeds
and replaces the record whole at its position. -/
theorem update_key_change_check_witness :
    (updateStep sW3 ("b") ("v") ("t")).2 = some .duplicateKey ∧
    (updateStep sW3 ("a") ("v") ("t")).2 = none ∧
    (updateStep sW3 ("a") ("v") ("t")).1.data = [⟨"a", "v", "t"⟩, ⟨"b", "2", ""⟩] := by
  have h1 := update_key_change_check sW3 ("b") ("v") ("t") ⟨"a", "1", ""⟩ 0
    (by decide) (by decide) (by decide) (by decide)
  have h2 := update_key_change_check sW3 ("a") ("v") ("t") ⟨"a", "1", ""⟩ 0
    (by decide) (by decide) (by decide) (by decide)
  refine ⟨(h1.2.1 (by decide) (by decide)).mpr ⟨1, ⟨"b", "2", ""⟩, by decide, by decide, rfl⟩,
    (h2.1 (by decide) rfl).1, ((h2.1 (by decide) rfl).2).trans (by decide)⟩

/-! ## Parsing the writer's output: single steps of the state machine -/

/-- In `eatCrnl`, a quote opens the first quoted field of the next row. -/
theorem csvAux_eat_quote (l : List Char) :
    csvAux .eatCrnl [] [] ('"' :: l) = csvAux .inQuoted [] [] l := rfl

/-- In `startField`, a quote opens a quoted field. -/
theorem csvAux_sf_quote (field : List Char) (fields : List (List Char)) (l : List Char) :
    csvAux .startField field fields ('"' :: l) = csvAux .inQuoted field fields l := rfl

/-- In `inQuoted`, a quote moves to `quoteInQuoted`. -/
theorem csvAux_iq_close (field : List Char) (fields : List (List Char)) (l : List Char) :
    csvAux .inQuoted field fields ('"' :: l) = csvAux .quoteInQuoted field fields l := rfl

/-- After a closing quote, a comma ends the field. -/
theorem csvAux_qq_comma (field : List Char) (fields : List (List Char)) (l : List Char) :
    csvAux .quoteInQuoted field fields (',' :: l) =
      csvAux .startField [] (fields ++ [field]) l := rfl

/-- After a closing quote, the `\r\n` terminator ends the row. -/
theorem csvAux_qq_crlf (field : List Char) (fields : List (List Char)) (l : List Char) :
    csvAux .quoteInQuoted field fields ('\r' :: '\n' :: l) =
      (fields ++ [field]) :: csvAux .eatCrnl [] [] l := rfl

/-- Consuming a quote-escaped field body inside a quoted field accumulates
exactly the original field text. -/
theorem csvAux_escape (f : List Char) :
    ∀ (field : List Char) (fields : List (List Char)) (rest : List Char),
      csvAux .inQuoted field fields (escapeQuotes f ++ rest) =
        csvAux .inQuoted (field ++ f) fields rest := by
  induction f with
  | nil =>
    intro field fields rest
    simp [escapeQuotes]
  | cons c cs ih =>
    intro field fields rest
    by_cases hc : c = '"'
    · subst hc
      have he : escapeQuotes ('"' :: cs) = '"' :: '"' :: escapeQuotes cs := by
        simp [escapeQuotes]
      rw [he, List.cons_append, List.cons_append, csvAux_iq_close]
      rw [show csvAux .quoteInQuoted field fields ('"' :: (escapeQuotes cs ++ rest)) =
            csvAux .inQuoted (field ++ ['"']) fields (escapeQuotes cs ++ rest) from rfl]
      rw [ih]
      simp
    · have he : escapeQuotes (c :: cs) = c :: escapeQuotes cs := by
        simp [escapeQuotes, hc]
      have hstep : csvAux .inQuoted field fields (c :: (escapeQuotes cs ++ rest)) =
          csvAux .inQuoted (field ++ [c]) fields (escapeQuotes cs ++ rest) := by
        simp [csvAux, hc]
      rw [he, List.cons_append, hstep, ih]
      simp

/-- Parsing one encoded row from the `eatCrnl` state recovers exactly the
three field texts and returns to `eatCrnl`. -/
theorem csvAux_encodeRow (r : Record) (rest : List Char) :
    csvAux .eatCrnl [] [] (encodeRow r ++ rest) =
      [r.key.data, r.value.data, r.tags.data] :: csvAux .eatCrnl [] [] rest := by
  simp only [encodeRow, quoteField, List.cons_append, List.append_assoc,
    List.singleton_append, List.nil_append]
  rw [csvAux_eat_quote, csvAux_escape, csvAux_iq_close, csvAux_qq_comma, csvAux_sf_quote,
    csvAux_escape, csvAux_iq_close, csvAux_qq_comma, csvAux_sf_quote,
    csvAux_escape, csvAux_iq_close, csvAux_qq_crlf]
  simp

/-- Parsing the concatenation of the encoded rows yields one decoded row per
record, with the exact field texts. -/
theorem csvAux_encoded_rows (records : List Record) :
    csvAux .eatCrnl [] [] ((records.map encodeRow).flatten) =
      records.map (fun r => [r.key.data, r.value.data, r.tags.data]) := by
  induction records with
  | nil => rfl
  | cons r rs ih =>
    rw [List.map_cons, List.flatten_cons, csvAux_encodeRow, ih, List.map_cons]

/-- Parsing the header line decodes it (its commas are unquoted separators)
into the row `["# key", "value", "tags"]` and continues in `eatCrnl`. -/
theorem csvParse_header (rest : List Char) :
    csvAux .startRecord [] [] (headerLine.data ++ rest) =
      [['#', ' ', 'k', 'e', 'y'], ['v', 'a', 'l', 'u', 'e'], ['t', 'a', 'g', 's']] ::
        csvAux .eatCrnl [] [] rest := by
  have hd : headerLine.data =
      ['#', ' ', 'k', 'e', 'y', ',', 'v', 'a', 'l', 'u', 'e', ',', 't', 'a', 'g', 's', '\n'] :=
    rfl
  rw [hd]
  rfl

/-- Decoding the full output of `save_csv`: the header row followed by one
row per record carrying the exact field texts. -/
theorem csvParse_saveContent (records : List Record) :
    csvParse (saveContent records) =
      [['#', ' ', 'k', 'e', 'y'], ['v', 'a', 'l', 'u', 'e'], ['t', 'a', 'g', 's']] ::
        records.map (fun r => [r.key.data, r.value.data, r.tags.data]) := by
  show csvAux .startRecord [] [] (headerLine.data ++ (records.map encodeRow).flatten) = _
  rw [csvParse_header, csvAux_encoded_rows]

/-! ## Characterisations of the row filtering of `load_csv` -/

/-- The records kept by `load_csv` are exactly the decoded rows that are
non-empty, whose first field does not start with `#`, and that have at least
3 fields, each turned into a record from its first three fields; the warned
rows are exactly the remaining non-comment rows (those with 1 or 2 fields),
kept verbatim. -/
theorem loadRows_filter (rows : List (List (List Char))) :
    (loadRows rows).1 =
      (rows.filter (fun row =>
        !row.isEmpty && !startsWithHash (row.headD []) && decide (3 ≤ row.length))).map
        rowToRecord ∧
    (loadRows rows).2 =
      rows.filter (fun row =>
        !row.isEmpty && !startsWithHash (row.headD []) && decide (row.length < 3)) := by
  induction rows with
  | nil => exact ⟨rfl, rfl⟩
  | cons row rest ih =>
    obtain ⟨ih1, ih2⟩ := ih
    by_cases hskip : (row.isEmpty || startsWithHash (row.headD [])) = true
    · have hb : (!row.isEmpty && !startsWithHash (row.headD [])) = false := by
        rw [← Bool.not_or, hskip]
        rfl
      have hp1 : (!row.isEmpty && !startsWithHash (row.headD []) &&
          decide (3 ≤ row.length)) = false := by
        rw [hb]
        rfl
      have hp2 : (!row.isEmpty && !startsWithHash (row.headD []) &&
          decide (row.length < 3)) = false := by
        rw [hb]
        rfl
      have hload : loadRows (row :: rest) = loadRows rest := by
        simp only [loadRows]
        rw [if_pos hskip]
      constructor
      · rw [hload, ih1, List.filter_cons, if_neg (by rw [hp1]; exact Bool.false_ne_true)]
      · rw [hload, ih2, List.filter_cons, if_neg (by rw [hp2]; exact Bool.false_ne_true)]
    · have hskip' : (row.isEmpty || startsWithHash (row.headD [])) = false :=
        Bool.eq_false_iff.mpr hskip
      have hb : (!row.isEmpty && !startsWithHash (row.headD [])) = true := by
        rw [← Bool.not_or, hskip']
        rfl
      by_cases h3 : 3 ≤ row.length
      · have hp1 : (!row.isEmpty && !startsWithHash (row.headD []) &&
            decide (3 ≤ row.length)) = true := by
          rw [hb, decide_eq_true h3]
          rfl
        have hp2 : (!row.isEmpty && !startsWithHash (row.headD []) &&
            decide (row.length < 3)) = false := by
          rw [hb, decide_eq_false (not_lt.mpr h3)]
          rfl
        have hload : loadRows (row :: rest) =
            (rowToRecord row :: (loadRows rest).1, (loadRows rest).2) := by
          simp only [loadRows]
          rw [if_neg hskip, if_pos h3]
        constructor
        · rw [hload]
          show rowToRecord row :: (loadRows rest).1 = _
          rw [ih1, List.filter_cons, if_pos hp1, List.map_cons]
        · rw [hload]
          show (loadRows rest).2 = _
          rw [ih2, List.filter_cons, if_neg (by rw [hp2]; exact Bool.false_ne_true)]
      · have hp1 : (!row.isEmpty && !startsWithHash (row.headD []) &&
            decide (3 ≤ row.length)) = false := by
          rw [hb, decide_eq_false h3]
          rfl
        have hp2 : (!row.isEmpty && !startsWithHash (row.headD []) &&
            decide (row.length < 3)) = true := by
          rw [hb, decide_eq_true (not_le.mp h3)]
          rfl
        have hload : loadRows (row :: rest) =
            ((loadRows rest).1, row :: (loadRows rest).2) := by
          simp only [loadRows]
          rw [if_neg hskip, if_neg h3]
        constructor
        · rw [hload]
          show (loadRows rest).1 = _
          rw [ih1, List.filter_cons, if_neg (by rw [hp1]; exact Bool.false_ne_true)]
        · rw [hload]
          show row :: (loadRows rest).2 = _
          rw [ih2, List.filter_cons, if_pos hp2]

/-- Comment skipping commutes with the row loop: loading is unchanged when
the rows whose first decoded field starts with `#` are removed up front. -/
theorem loadRows_comment_filter (rows : List (List (List Char))) :
    loadRows rows = loadRows (rows.filter (fun row => !startsWithHash (row.headD []))) := by
  induction rows with
  | nil => rfl
  | cons row rest ih =>
    rw [List.filter_cons]
    by_cases hh : startsWithHash (row.headD []) = true
    · rw [if_neg (by rw [hh]; decide)]
      have hskip : (row.isEmpty || startsWithHash (row.headD [])) = true := by
        rw [hh]
        simp
      have hload : loadRows (row :: rest) = loadRows rest := by
        simp only [loadRows]
        rw [if_pos hskip]
      rw [hload, ih]
    · have hh' : startsWithHash (row.headD []) = false := Bool.eq_false_iff.mpr hh
      rw [if_pos (by rw [hh']; rfl)]
      simp only [loadRows]
      rw [ih]

/-! ## Claim C5: malformed rows (corrected) -/

/-- C5 counterexample: a row decoding to 4 fields is not skipped and not
warned — it is kept as a record built from its first three fields. -/
theorem malformed_rows_counterexample :
    (load_csv (.content (("a,b,c,d\n").data))).records = [⟨"a", "b", "c"⟩] ∧
    (load_csv (.content (("a,b,c,d\n").data))).warnings = [] := by
  decide

/-- C5 amended: a decoded row that is non-blank and not a comment is kept as
a record exactly when it decodes to at least 3 fields (only its first three
are used, extra fields are dropped); a row decoding to 1 or 2 fields is
skipped and reported as a warning preserving the original row content; the
rows before and after a skipped row still load (the result is a filter/map
of the decoded row list). -/
theorem malformed_rows_amended (chars : List Char) :
    (load_csv (.content chars)).records =
      ((csvParse chars).filter (fun row =>
        !row.isEmpty && !startsWithHash (row.headD []) && decide (3 ≤ row.length))).map
        rowToRecord ∧
    (load_csv (.content chars)).warnings =
      (csvParse chars).filter (fun row =>
        !row.isEmpty && !startsWithHash (row.headD []) && decide (row.length < 3)) :=
  ⟨(loadRows_filter (csvParse chars)).1, (loadRows_filter (csvParse chars)).2⟩

/-! ## Claim C9: comment skipping (corrected) -/

/-- C9 counterexample: the line `"#a","b","c"` does not begin with `#` (it
begins with a quote) and decodes to a well-formed 3-field row, yet it is
skipped as a comment: it yields neither a record nor a warning. -/
theorem comment_skip_counterexample :
    (load_csv (.content (("\"#a\",\"b\",\"c\"\n").data))).records = [] ∧
    (load_csv (.content (("\"#a\",\"b\",\"c\"\n").data))).warnings = [] ∧
    (("\"#a\",\"b\",\"c\"\n").data).headD (' ') = '"' := by
  decide

/-- C9 amended: `load_csv` skips as comments exactly the decoded rows whose
first decoded field starts with `#` (loading equals loading with those rows
removed).  A raw line beginning with `#` decodes to a first field beginning
with `#` and is therefore skipped, but so is a row whose quoted first field
content starts with `#`, even though its line begins with a quote. -/
theorem comment_skip_amended (chars : List Char) :
    (load_csv (.content chars)).records =
      (loadRows ((csvParse chars).filter (fun row => !startsWithHash (row.headD [])))).1 ∧
    (load_csv (.content chars)).warnings =
      (loadRows ((csvParse chars).filter (fun row => !startsWithHash (row.headD [])))).2 := by
  constructor
  · show (loadRows (csvParse chars)).1 = _
    rw [← loadRows_comment_filter]
  · show (loadRows (csvParse chars)).2 = _
    rw [← loadRows_comment_filter]

/-! ## Claim C10: no key validation at load time -/

/-- C10: `load_csv` performs no key validation: any decoded non-comment row
with at least 3 fields is kept, with no condition on its key field, so a
loaded record list can contain empty and duplicated keys — as the concrete
load of `x,a,b`, `x,c,d`, `,e,f` shows. -/
theorem load_no_key_validation :
    (∀ (rows : List (List (List Char))) (row : List (List Char)),
      3 ≤ row.length → startsWithHash (row.headD []) = false →
      (loadRows (row :: rows)).1 = rowToRecord row :: (loadRows rows).1) ∧
    (load_csv (.content (("x,a,b\nx,c,d\n,e,f\n").data))).records =
      [⟨"x", "a", "b"⟩, ⟨"x", "c", "d"⟩, ⟨"", "e", "f"⟩] := by
  constructor
  · intro rows row h3 hh
    have hne : row.isEmpty = false := by
      cases row with
      | nil => simp at h3
      | cons a l => rfl
    have hskip' : (row.isEmpty || startsWithHash (row.headD [])) = false := by
      rw [hne, hh]
      rfl
    have hload : loadRows (row :: rows) =
        (rowToRecord row :: (loadRows rows).1, (loadRows rows).2) := by
      simp only [loadRows]
      rw [if_neg (by rw [hskip']; decide), if_pos h3]
    rw [hload]
  · decide

/-- C10 witness: the general part of `load_no_key_validation` applied to a
concrete 3-field row with an empty key, which is kept as a record. -/
theorem load_no_key_validation_witness :
    (loadRows ([[[], ['a'], ['b']]])).1 = [⟨"", "a", "b"⟩] := by
  have h := load_no_key_validation.1 [] [[], ['a'], ['b']] (by decide) (by decide)
  exact h.trans (by decide)

/-! ## Claim C1: save/load round trip (corrected)

The round trip as claimed fails: `load_csv` strips leading and trailing
double quotes from every decoded field (`row[i].strip('"')`), and skips any
row whose first decoded field starts with `#` — even when that field was
quoted on disk.  It holds once no field starts or ends with a double quote
and no key starts with `#`. -/

/-- Loading the exact decoded rows of an encoded record list returns the
records themselves, provided quote-stripping fixes every field and no key
starts with `#`. -/
theorem loadRows_encoded (records : List Record)
    (hclean : ∀ r ∈ records,
      stripQuotes r.key.data = r.key.data ∧ stripQuotes r.value.data = r.value.data ∧
      stripQuotes r.tags.data = r.tags.data ∧ startsWithHash r.key.data = false) :
    loadRows (records.map (fun r => [r.key.data, r.value.data, r.tags.data])) =
      (records, []) := by
  induction records with
  | nil => rfl
  | cons r rs ih =>
    obtain ⟨hk, hv, ht, hh⟩ := hclean r (List.mem_cons_self r rs)
    have hrest := ih (fun x hx => hclean x (List.mem_cons_of_mem r hx))
    have hrec : rowToRecord [r.key.data, r.value.data, r.tags.data] = r := by
      simp [rowToRecord, hk, hv, ht]
    rw [List.map_cons]
    simp [loadRows, hh, hrest, hrec]

/-- C1 counterexample: a record sequence with non-empty pairwise-distinct
keys for which the round trip fails — the record keyed `#k` is skipped as a
comment on reload, and the lone-quote value of the record keyed `k` is
stripped to the empty string. -/
theorem save_load_roundtrip_counterexample :
    (load_csv (.content (saveContent [⟨"#k", "v", "t"⟩, ⟨"k", "\"", ""⟩]))).records =
      [⟨"k", "", ""⟩] ∧
    [(⟨"k", "", ""⟩ : Record)] ≠ [⟨"#k", "v", "t"⟩, ⟨"k", "\"", ""⟩] := by
  decide

/-- C1 amended: for every record sequence with non-empty pairwise-distinct
keys and arbitrary value/tags text (commas, interior double quotes and
newlines included), provided additionally that no field starts or ends with
a double quote (so `strip('"')` leaves it unchanged) and no key starts with
`#`, saving with `save_csv` and loading the written content with `load_csv`
returns the same record sequence in the same order, with no warnings. -/
theorem save_load_roundtrip (records : List Record)
    (_hkeys : ∀ r ∈ records, r.key ≠ "")
    (_hnd : (records.map (fun r => r.key)).Nodup)
    (hclean : ∀ r ∈ records,
      stripQuotes r.key.data = r.key.data ∧ stripQuotes r.value.data = r.value.data ∧
      stripQuotes r.tags.data = r.tags.data ∧ startsWithHash r.key.data = false) :
    (load_csv (.content (saveContent records))).records = records ∧
    (load_csv (.content (saveContent records))).warnings = [] := by
  have hrows : loadRows (csvParse (saveContent records)) = (records, []) := by
    rw [csvParse_saveContent]
    have hhdr : loadRows
        ((['#', ' ', 'k', 'e', 'y'] :: [['v', 'a', 'l', 'u', 'e'], ['t', 'a', 'g', 's']]) ::
          records.map (fun r => [r.key.data, r.value.data, r.tags.data])) =
        loadRows (records.map (fun r => [r.key.data, r.value.data, r.tags.data])) := by
      simp [loadRows, startsWithHash]
    rw [hhdr, loadRows_encoded records hclean]
  constructor
  · show (loadRows (csvParse (saveContent records))).1 = records
    rw [hrows]
  · show (loadRows (csvParse (saveContent records))).2 = []
    rw [hrows]

/-- C1 witness: the amended round trip at a concrete record list whose
fields contain commas, an embedded newline and interior double quotes. -/
theorem save_load_roundtrip_witness :
    (load_csv (.content (saveContent
      [⟨"k1", "a,\nb", ""⟩, ⟨"k2", "say \"hi\" now", "t1,t2"⟩]))).records =
      [⟨"k1", "a,\nb", ""⟩, ⟨"k2", "say \"hi\" now", "t1,t2"⟩] :=
  (save_load_roundtrip [⟨"k1", "a,\nb", ""⟩, ⟨"k2", "say \"hi\" now", "t1,t2"⟩]
    (by decide) (by decide) (by decide)).1

end KnowledgeApp
